import Mathlib

/-!
Verification of the MS SQL → PostgreSQL replication scripts
(`replicate-schema.py`, `sync-data.py`, `progress.py`).

The Python code is shallowly embedded: pure helpers become Lean
functions on `String` / `List Char` / `Int`; the progress file is an
insertion-ordered association list mirroring a Python dict; the
PostgreSQL connection is modelled by an explicit transaction state,
and `sync_table_data` returns the trace of statements it executed.
Wall-clock timestamps (`datetime.now()`) are omitted from the
progress records: no claim mentions them.
-/

namespace Repl

/-- ASCII character-class tests matching the regex classes `[A-Z]`,
`[a-z]`, `[0-9]` used in `camel_to_snake` / `to_snake_case`. -/
def isUp (c : Char) : Bool := 65 ≤ c.toNat && c.toNat ≤ 90

def isLo (c : Char) : Bool := 97 ≤ c.toNat && c.toNat ≤ 122

def isDig (c : Char) : Bool := 48 ≤ c.toNat && c.toNat ≤ 57

/-- Python `str.lower()` restricted to ASCII (the identifiers handled by
the scripts are ASCII; Lean's own `Char.toLower` has the same ASCII
behaviour). -/
def lowerChar (c : Char) : Char :=
  if isUp c then Char.ofNat (c.toNat + 32) else c

/-- `str.lower()` on a whole string. -/
def pyLower (s : String) : String := ⟨s.data.map lowerChar⟩

/-- First pass of `camel_to_snake` / `to_snake_case`:
`re.sub('(.)([A-Z][a-z]+)', r'\1_\2', name)`.
Scans left to right; a match is any non-newline character followed by
an uppercase letter and a maximal nonempty run of lowercase letters;
scanning resumes after the match. -/
def sub1 : List Char → List Char
  | [] => []
  | [a] => [a]
  | [a, b] => [a, b]
  | c :: u :: l :: rest =>
    if c ≠ '\n' && isUp u && isLo l then
      c :: '_' :: u :: l :: (rest.takeWhile isLo ++ sub1 (rest.dropWhile isLo))
    else
      c :: sub1 (u :: l :: rest)
termination_by l => l.length
decreasing_by
  · have h := (List.dropWhile_suffix (l := rest) isLo).length_le
    simp only [List.length_cons]
    omega
  · simp only [List.length_cons]
    omega

/-- Second pass: `re.sub('([a-z0-9])([A-Z])', r'\1_\2', s1)`. -/
def sub2 : List Char → List Char
  | [] => []
  | [a] => [a]
  | a :: b :: rest =>
    if (isLo a || isDig a) && isUp b then
      a :: '_' :: b :: sub2 rest
    else
      a :: sub2 (b :: rest)

/-- `camel_to_snake` from `sync-data.py`: the two regex passes followed
by `.lower()`. -/
def camel_to_snake (name : List Char) : List Char :=
  (sub2 (sub1 name)).map lowerChar

/-- `to_snake_case` from `replicate-schema.py`: character-identical to
`camel_to_snake`. -/
def to_snake_case (name : List Char) : List Char :=
  (sub2 (sub1 name)).map lowerChar

/-- `to_snake_case` lifted to `String` for DDL composition. -/
def to_snake_case_str (s : String) : String := ⟨to_snake_case s.data⟩

/-- An entry of `TYPE_MAPPING` in `replicate-schema.py` is either a plain
string or a lambda of one (`length`) or two (`precision`, `scale`)
integer arguments. -/
inductive SqlRule where
  | s (v : String)
  | f1 (f : Int → String)
  | f2 (f : Int → Int → String)

/-- Shape test for `isinstance(mapping, str)`. -/
def SqlRule.isStr : SqlRule → Bool
  | .s _ => true
  | _ => false

/-- `TYPE_MAPPING` from `replicate-schema.py`: MS SQL → PostgreSQL.
Integer division `//` is Python floor division, i.e. `Int.fdiv`. -/
def TYPE_MAPPING : List (String × SqlRule) := [
  ("tinyint", .s "SMALLINT"),
  ("smallint", .s "SMALLINT"),
  ("int", .s "INTEGER"),
  ("bigint", .s "BIGINT"),
  ("decimal", .f2 fun p s => "NUMERIC(" ++ toString p ++ "," ++ toString s ++ ")"),
  ("numeric", .f2 fun p s => "NUMERIC(" ++ toString p ++ "," ++ toString s ++ ")"),
  ("money", .s "NUMERIC(19,4)"),
  ("smallmoney", .s "NUMERIC(10,4)"),
  ("float", .s "DOUBLE PRECISION"),
  ("real", .s "REAL"),
  ("bit", .s "BOOLEAN"),
  ("char", .f1 fun length => "CHAR(" ++ toString (Int.fdiv length 2) ++ ")"),
  ("varchar", .f1 fun length =>
    if length > 0 ∧ length < 8000 then "VARCHAR(" ++ toString length ++ ")" else "TEXT"),
  ("nchar", .f1 fun length => "CHAR(" ++ toString (Int.fdiv length 2) ++ ")"),
  ("nvarchar", .f1 fun length =>
    if length > 0 ∧ length < 8000 then "VARCHAR(" ++ toString (Int.fdiv length 2) ++ ")" else "TEXT"),
  ("text", .s "TEXT"),
  ("ntext", .s "TEXT"),
  ("date", .s "DATE"),
  ("time", .s "TIME(6)"),
  ("datetime", .s "TIMESTAMP(6)"),
  ("datetime2", .s "TIMESTAMP(6)"),
  ("smalldatetime", .s "TIMESTAMP(6)"),
  ("datetimeoffset", .s "TIMESTAMPTZ(6)"),
  ("binary", .s "BYTEA"),
  ("varbinary", .s "BYTEA"),
  ("image", .s "BYTEA"),
  ("uniqueidentifier", .s "UUID"),
  ("xml", .s "TEXT"),
  ("sql_variant", .s "TEXT"),
  ("geography", .s "TEXT"),
  ("geometry", .s "TEXT"),
  ("hierarchyid", .s "TEXT")]

/-- Python dict lookup `TYPE_MAPPING[k]` / membership `k in TYPE_MAPPING`. -/
def lookupType (k : String) : Option SqlRule :=
  (TYPE_MAPPING.find? (fun p => p.1 == k)).map (fun p => p.2)

/-- `convert_type` from `replicate-schema.py`, with Python's dynamic
failure modes made explicit: a missing dict key or calling a
non-callable/wrong-arity entry would raise — modelled as `.error`.
The theorems show the `.error` arms are unreachable. -/
def convert_type (data_type : String) (max_length precision scale : Int) :
    Except String String :=
  let dtl := pyLower data_type
  if dtl = "decimal" ∨ dtl = "numeric" then
    match lookupType dtl with
    | some (.f2 f) => .ok (f precision scale)
    | some _ => .error "TypeError"
    | none => .error "KeyError"
  else if dtl = "char" ∨ dtl = "varchar" ∨ dtl = "nchar" ∨ dtl = "nvarchar" then
    match lookupType dtl with
    | some (.f1 f) => .ok (f max_length)
    | some _ => .error "TypeError"
    | none => .error "KeyError"
  else
    match lookupType dtl with
    | some (.s v) => .ok v
    | some _ => .error "TypeError"
    | none => .ok "TEXT"

/-- `convert_type` as the plain string it returns on the (always taken)
success path; used when composing DDL. -/
def convert_type_val (data_type : String) (max_length precision scale : Int) : String :=
  match convert_type data_type max_length precision scale with
  | .ok v => v
  | .error e => e

/-- Python values flowing through `transform_value`: `None`, `str`,
`int`, `bool` and `list` (enough for the row transforms; floats and
datetimes are outside the shallow embedding, `dict` behaves like `list`
for every property stated here). -/
inductive PyVal where
  | none
  | pstr (s : String)
  | pint (n : Int)
  | pbool (b : Bool)
  | plist (xs : List PyVal)

/-- Python truthiness (`if value`): `None`, `""`, `0`, `False` and `[]`
are falsy. -/
def truthy : PyVal → Bool
  | .none => false
  | .pstr s => !(s == "")
  | .pint n => !(n == 0)
  | .pbool b => b
  | .plist xs => !xs.isEmpty

/-- `isinstance(value, str)`. -/
def isPyStr : PyVal → Bool
  | .pstr _ => true
  | _ => false

mutual

/-- `json.dumps` (default separators) on the modelled values. -/
def jsonDumps : PyVal → String
  | .none => "null"
  | .pstr s => "\"" ++ s ++ "\""
  | .pint n => toString n
  | .pbool b => if b then "true" else "false"
  | .plist xs => "[" ++ String.intercalate ", " (jsonDumpsList xs) ++ "]"

def jsonDumpsList : List PyVal → List String
  | [] => []
  | x :: xs => jsonDumps x :: jsonDumpsList xs

end

mutual

/-- Python `str(value)` on the modelled values. -/
def pyStr : PyVal → String
  | .none => "None"
  | .pstr s => s
  | .pint n => toString n
  | .pbool b => if b then "True" else "False"
  | .plist xs => "[" ++ String.intercalate ", " (pyStrList xs) ++ "]"

def pyStrList : List PyVal → List String
  | [] => []
  | x :: xs => pyStr x :: pyStrList xs

end

/-- `transform_value` from `sync-data.py`.  `uuidCols` / `jsonCols` are
the `UUID_COLUMNS` / `JSON_COLUMNS` environment lists; checks happen in
source order: `None`, UUID columns, JSON columns, `uniqueidentifier`,
`datetimeoffset`, pass-through. -/
def transform_value (uuidCols jsonCols : List String)
    (value : PyVal) (column_name : String) (data_type : String) : PyVal :=
  match value with
  | .none => .none
  | v =>
    if (uuidCols.map pyLower).contains (pyLower column_name) then
      if isPyStr v then v else .pstr (pyStr v)
    else if (jsonCols.map pyLower).contains (pyLower column_name) then
      if isPyStr v then v
      else if truthy v then .pstr (jsonDumps v) else .none
    else if data_type = "uniqueidentifier" then
      .pstr (pyStr v)
    else if data_type = "datetimeoffset" then
      if truthy v then .pstr (pyStr v) else .none
    else
      v

/-- Status values written by `progress.py`. -/
inductive Status where
  | in_progress
  | completed
  | failed
deriving DecidableEq

/-- One `(table, phase)` record of the progress file.  The wall-clock
fields (`started_at`/`completed_at`/`failed_at`) are `datetime.now()`
side effects and are omitted; no claim mentions them. -/
structure PhaseRecord where
  status : Status
  rows_synced : Int
  error : Option String
deriving DecidableEq

/-- A Python dict as an insertion-ordered association list: updating an
existing key keeps its position, a new key is appended. -/
def dictSet {α : Type} (d : List (String × α)) (k : String) (v : α) :
    List (String × α) :=
  match d with
  | [] => [(k, v)]
  | (k', v') :: rest => if k' = k then (k', v) :: rest else (k', v') :: dictSet rest k v

/-- Python `d.get(k)` / `k in d`. -/
def dictGet? {α : Type} (d : List (String × α)) (k : String) : Option α :=
  match d with
  | [] => Option.none
  | (k', v') :: rest => if k' = k then some v' else dictGet? rest k

/-- `progress_data["tables"]`: table name → phase name → record. -/
abbrev ProgressData : Type := List (String × List (String × PhaseRecord))

/-- `ProgressTracker.mark_table_started`. -/
def mark_table_started (pd : ProgressData) (table phase : String) : ProgressData :=
  let phases := (dictGet? pd table).getD []
  dictSet pd table (dictSet phases phase ⟨.in_progress, 0, Option.none⟩)

/-- `ProgressTracker.mark_table_completed` (`rows_synced` defaults to 0
in Python; call sites pass it explicitly here). -/
def mark_table_completed (pd : ProgressData) (table phase : String)
    (rows_synced : Int) : ProgressData :=
  let phases := (dictGet? pd table).getD []
  dictSet pd table (dictSet phases phase ⟨.completed, rows_synced, Option.none⟩)

/-- `ProgressTracker.mark_table_failed` (`rows_synced` defaults to 0 in
Python and no caller in the scripts passes it). -/
def mark_table_failed (pd : ProgressData) (table phase : String)
    (error : String) (rows_synced : Int) : ProgressData :=
  let phases := (dictGet? pd table).getD []
  dictSet pd table (dictSet phases phase ⟨.failed, rows_synced, some error⟩)

/-- `ProgressTracker.is_table_completed`. -/
def is_table_completed (pd : ProgressData) (table phase : String) : Bool :=
  match dictGet? pd table with
  | some phases =>
    match dictGet? phases phase with
    | some r => r.status = .completed
    | Option.none => false
  | Option.none => false

/-- `ProgressTracker.is_table_partial`. -/
def is_table_partial (pd : ProgressData) (table phase : String) : Bool :=
  match dictGet? pd table with
  | some phases =>
    match dictGet? phases phase with
    | some r => r.status = .in_progress ∨ r.status = .failed
    | Option.none => false
  | Option.none => false

/-- `ProgressTracker.get_last_failed_table`: scan the tables in
insertion order; return the first whose record for `phase` has status
`failed` or `in_progress`. -/
def get_last_failed_table (pd : ProgressData) (phase : String) : Option String :=
  match pd with
  | [] => Option.none
  | (table, phases) :: rest =>
    match dictGet? phases phase with
    | some r =>
      if r.status = .failed ∨ r.status = .in_progress then some table
      else get_last_failed_table rest phase
    | Option.none => get_last_failed_table rest phase

/-- Spec-side predicate: the table entry has a `failed` or `in_progress`
record for `phase`. -/
def failedOrInProgress (phases : List (String × PhaseRecord)) (phase : String) : Bool :=
  match dictGet? phases phase with
  | some r => r.status = .failed ∨ r.status = .in_progress
  | Option.none => false

/-- State of the PostgreSQL connection during `sync_table_data`:
the committed rows of the one target table, plus the open
transaction's uncommitted inserts and whether it holds an uncommitted
`TRUNCATE`. -/
structure TgTx where
  committed : List (List PyVal)
  pending : List (List PyVal)
  pendingTruncate : Bool

/-- Statements executed on the target connection, in order. -/
inductive TgOp where
  | truncate
  | commit
  | rollback
  | insertBatch (n : Nat)
deriving DecidableEq

def txTruncate (st : TgTx) : TgTx :=
  { st with pending := [], pendingTruncate := true }

def txCommit (st : TgTx) : TgTx :=
  ⟨(if st.pendingTruncate then [] else st.committed) ++ st.pending, [], false⟩

def txRollback (st : TgTx) : TgTx :=
  ⟨st.committed, [], false⟩

def txInsert (st : TgTx) (rows : List (List PyVal)) : TgTx :=
  { st with pending := st.pending ++ rows }

/-- Per-row transform inside `sync_table_data`: each value is passed to
`transform_value` with its column's name and type (`columns` pairs a
name with a type; source rows align with `columns` by construction of
the `SELECT`). -/
def transformRow (uuidCols jsonCols : List String)
    (columns : List (String × String)) (row : List PyVal) : List PyVal :=
  (row.zip columns).map (fun vc => transform_value uuidCols jsonCols vc.1 vc.2.1 vc.2.2)

/-- The `while True` fetch/batch/flush loop of `sync_table_data`.
`fail = some (n, msg)` injects a driver exception at the `n`-th
`fetchone` call (0-based); `fail = none` is a clean run.  Returns
`(raised?, rows_synced, connection state, executed statements)`. -/
def syncLoop (bs : Nat) (tr : List PyVal → List PyVal) (fail : Option (Nat × String)) :
    List (List PyVal) → Nat → List (List PyVal) → Nat → TgTx → List TgOp →
    Option String × Nat × TgTx × List TgOp
  | remaining, fetchIdx, batch, synced, st, trace =>
    if (match fail with | some nm => nm.1 == fetchIdx | Option.none => false) then
      ((match fail with | some nm => some nm.2 | Option.none => Option.none),
        synced, st, trace)
    else
      match remaining with
      | [] =>
        if batch.isEmpty then (Option.none, synced, st, trace)
        else
          (Option.none, synced + batch.length, txCommit (txInsert st batch),
            trace ++ [.insertBatch batch.length, .commit])
      | r :: rest =>
        let batch1 := batch ++ [tr r]
        if bs ≤ batch1.length then
          syncLoop bs tr fail rest (fetchIdx + 1) [] (synced + batch1.length)
            (txCommit (txInsert st batch1)) (trace ++ [.insertBatch batch1.length, .commit])
        else
          syncLoop bs tr fail rest (fetchIdx + 1) batch1 synced st trace

/-- Result of `sync_table_data`: the Python return value, the committed
rows of the target table, the updated progress data and the trace of
statements executed on the target connection. -/
structure SyncResult where
  retval : Int
  target : List (List PyVal)
  progress : ProgressData
  trace : List TgOp

/-- `sync_table_data` from `sync-data.py`: mark started, execute the
source `SELECT`, `TRUNCATE` the target and commit, then run the batch
loop; on success mark completed with the row count and return it, on
any exception roll back, mark failed (Python passes no `rows_synced`,
so the default 0 is recorded) and return 0. -/
def sync_table_data (uuidCols jsonCols : List String) (table : String)
    (columns : List (String × String)) (rows : List (List PyVal))
    (fail : Option (Nat × String)) (bs : Nat)
    (tgt : List (List PyVal)) (pd : ProgressData) : SyncResult :=
  match syncLoop bs (transformRow uuidCols jsonCols columns) fail rows 0 [] 0
      (txCommit (txTruncate ⟨tgt, [], false⟩)) [.truncate, .commit] with
  | (Option.none, synced, st, trace) =>
    ⟨Int.ofNat synced, st.committed,
      mark_table_completed (mark_table_started pd table "data") table "data"
        (Int.ofNat synced), trace⟩
  | (some msg, _, st, trace) =>
    ⟨0, (txRollback st).committed,
      mark_table_failed (mark_table_started pd table "data") table "data" msg 0,
      trace ++ [.rollback]⟩

def isInsertOp : TgOp → Bool
  | .insertBatch _ => true
  | _ => false

/-- How many `COMMIT`s the trace runs strictly between the first
`TRUNCATE` and the first batch insert; "truncate in the same
transaction as the inserts" means this is 0. -/
def commitsBetweenTruncateAndFirstInsert (trace : List TgOp) : Nat :=
  (((trace.dropWhile (fun op => !(op == TgOp.truncate))).drop 1).takeWhile
      (fun op => !(isInsertOp op))).countP (fun op => op == TgOp.commit)

/-- Per-table collaborator behaviour for the `main` loop of
`sync-data.py`: whether `get_table_columns` raises, the column
descriptors, the source rows, an injected sync failure and the
pre-existing committed target rows. -/
structure TableEnv where
  colsErr : Option String
  columns : List (String × String)
  rows : List (List PyVal)
  fail : Option (Nat × String)
  tgt : List (List PyVal)

/-- Mutable state of `main`'s loop over the tables. -/
structure LoopState where
  pd : ProgressData
  successful : Nat
  skipped : Nat
  totalRows : Int
  processed : List String

/-- The `for idx, (schema, table) in enumerate(tables, 1)` loop of
`main` in `sync-data.py` (`i` is the 0-based `idx - 1`); `processed`
records the tables that were not skipped. -/
def mainGo (resume : Bool) (uuidCols jsonCols : List String) (bs : Nat)
    (env : String → TableEnv) (startIndex : Nat) :
    List String → Nat → LoopState → LoopState
  | [], _, st => st
  | table :: rest, i, st =>
    if i < startIndex then
      mainGo resume uuidCols jsonCols bs env startIndex rest (i + 1)
        { st with skipped := st.skipped + 1 }
    else if !resume && is_table_completed st.pd table "data" then
      mainGo resume uuidCols jsonCols bs env startIndex rest (i + 1)
        { st with skipped := st.skipped + 1 }
    else
      match (env table).colsErr with
      | some msg =>
        mainGo resume uuidCols jsonCols bs env startIndex rest (i + 1)
          { st with pd := mark_table_failed st.pd table "data" msg 0,
                    processed := st.processed ++ [table] }
      | Option.none =>
        mainGo resume uuidCols jsonCols bs env startIndex rest (i + 1)
          (if (sync_table_data uuidCols jsonCols table (env table).columns
              (env table).rows (env table).fail bs (env table).tgt st.pd).retval ≥ 0 then
            { st with
              pd := (sync_table_data uuidCols jsonCols table (env table).columns
                        (env table).rows (env table).fail bs (env table).tgt
                        st.pd).progress,
              totalRows := st.totalRows +
                  (sync_table_data uuidCols jsonCols table (env table).columns
                     (env table).rows (env table).fail bs (env table).tgt
                     st.pd).retval,
              processed := st.processed ++ [table],
              successful := st.successful + 1 }
          else
            { st with
              pd := (sync_table_data uuidCols jsonCols table (env table).columns
                        (env table).rows (env table).fail bs (env table).tgt
                        st.pd).progress,
              totalRows := st.totalRows +
                  (sync_table_data uuidCols jsonCols table (env table).columns
                     (env table).rows (env table).fail bs (env table).tgt
                     st.pd).retval,
              processed := st.processed ++ [table] })

/-- Start-index determination in `main`: `--resume` looks up the first
failed/in-progress table and uses its position when it is in the list
(0 otherwise); `--start-from-table` uses the named table's position and
aborts (`none`, = `sys.exit(1)`) when absent; default start is 0. -/
def compute_start_index (resume : Bool) (startFrom : Option String)
    (tables : List String) (pd : ProgressData) : Option Nat :=
  if resume then
    match get_last_failed_table pd "data" with
    | some t =>
      if t ∈ tables then some (tables.findIdx (fun x => x == t)) else some 0
    | Option.none => some 0
  else
    match startFrom with
    | some t =>
      if t ∈ tables then some (tables.findIdx (fun x => x == t)) else Option.none
    | Option.none => some 0

/-- Outcome of a `sync-data.py` run. -/
structure MainResult where
  exitCode : Nat
  processed : List String
  progress : ProgressData
  successful : Nat
  skipped : Nat
  totalRows : Int

/-- `main` of `sync-data.py` after the connections are up: empty table
list exits 1; a missing `--start-from-table` name exits 1; otherwise
run the loop and exit 0 iff `successful_tables + skipped_count ==
len(tables)`. -/
def main_sync (resume : Bool) (startFrom : Option String)
    (uuidCols jsonCols : List String) (bs : Nat)
    (tables : List String) (env : String → TableEnv) (pd0 : ProgressData) :
    MainResult :=
  if tables.isEmpty then ⟨1, [], pd0, 0, 0, 0⟩
  else
    match compute_start_index resume startFrom tables pd0 with
    | Option.none => ⟨1, [], pd0, 0, 0, 0⟩
    | some startIndex =>
      let st := mainGo resume uuidCols jsonCols bs env startIndex tables 0 ⟨pd0, 0, 0, 0, []⟩
      ⟨if st.successful + st.skipped = tables.length then 0 else 1,
        st.processed, st.pd, st.successful, st.skipped, st.totalRows⟩

/-- One row of `get_mssql_schema`'s result, as consumed by
`create_postgres_table`. -/
structure SchemaRow where
  column_name : String
  data_type : String
  max_length : Int
  precision : Int
  scale : Int
  is_nullable : Bool
  is_primary_key : Bool

/-- `POSTGRES_RESERVED_KEYWORDS` (identical in both scripts). -/
def POSTGRES_RESERVED_KEYWORDS : List String := [
  "all", "analyse", "analyze", "and", "any", "array", "as", "asc", "asymmetric",
  "authorization", "between", "binary", "both", "case", "cast", "check", "collate",
  "collation", "column", "concurrently", "constraint", "create", "cross",
  "current_catalog", "current_date", "current_role", "current_schema",
  "current_time", "current_timestamp", "current_user", "default", "deferrable",
  "desc", "distinct", "do", "else", "end", "except", "false", "fetch", "for",
  "foreign", "freeze", "from", "full", "grant", "group", "having", "ilike", "in",
  "initially", "inner", "intersect", "into", "is", "isnull", "join", "lateral",
  "leading", "left", "like", "limit", "localtime", "localtimestamp", "natural",
  "not", "notnull", "null", "offset", "on", "only", "or", "order", "outer",
  "overlaps", "placing", "primary", "references", "returning", "right", "select",
  "session_user", "similar", "some", "symmetric", "table", "tablesample", "then",
  "to", "trailing", "true", "union", "unique", "user", "using", "variadic",
  "verbose", "when", "where", "window", "with"]

/-- `quote_identifier`: double-quote iff the lower-cased name is a
reserved keyword. -/
def quote_identifier (name : String) : String :=
  if POSTGRES_RESERVED_KEYWORDS.contains (pyLower name) then
    "\"" ++ name ++ "\""
  else name

/-- The two SQL statements `create_postgres_table` composes. -/
structure DdlOut where
  drop_sql : String
  create_sql : String
  pg_table_name : String

/-- The column/primary-key accumulation loop of
`create_postgres_table`: left fold over the schema rows building the
column definition strings and the primary-key column list. -/
def table_column_defs (schema : List SchemaRow) : List String × List String :=
  schema.foldl (fun (acc : List String × List String) row =>
    let col_name := to_snake_case_str row.column_name
    let pg_type := convert_type_val row.data_type row.max_length row.precision row.scale
    let quoted_col_name := quote_identifier col_name
    let col_def := quoted_col_name ++ " " ++ pg_type
    if row.is_primary_key then
      (acc.1 ++ [col_def ++ " NOT NULL"], acc.2 ++ [quoted_col_name])
    else if !row.is_nullable then
      (acc.1 ++ [col_def ++ " NOT NULL"], acc.2)
    else
      (acc.1 ++ [col_def], acc.2)) ([], [])

/-- Everything of `create_sql` after the qualified table name: the
column list (with the trailing `__cdc_deleted` marker), the optional
`PRIMARY KEY` clause, and the closing parenthesis. -/
def create_table_body (schema : List SchemaRow) : String :=
  " (\n    "
  ++ String.intercalate ",\n    "
      ((table_column_defs schema).1 ++ ["__cdc_deleted TEXT DEFAULT \x27false\x27"])
  ++ (if (table_column_defs schema).2.isEmpty then ""
      else ",\n    PRIMARY KEY ("
        ++ String.intercalate ", " (table_column_defs schema).2 ++ ")")
  ++ "\n);"

/-- The statement composition of `create_postgres_table` in
`replicate-schema.py`: the `DROP TABLE` hard-codes schema `dbo` while
the `CREATE TABLE` uses the configured `POSTGRES_SCHEMA`. -/
def create_postgres_table_sql (pgSchema table_name : String)
    (schema : List SchemaRow) : DdlOut :=
  ⟨"DROP TABLE IF EXISTS dbo." ++ to_snake_case_str table_name ++ " CASCADE",
   "CREATE TABLE IF NOT EXISTS " ++ pgSchema ++ "." ++ to_snake_case_str table_name
     ++ create_table_body schema,
   to_snake_case_str table_name⟩

/-- A target catalog: (schema, table) → stored definition. -/
abbrev Catalog : Type := List ((String × String) × String)

def catGet? (cat : Catalog) (key : String × String) : Option String :=
  (cat.find? (fun e => e.1 == key)).map (fun e => e.2)

/-- Semantics of `DROP TABLE IF EXISTS s.t`. -/
def dropTableIfExists (cat : Catalog) (key : String × String) : Catalog :=
  cat.filter (fun e => !(e.1 == key))

/-- Semantics of `CREATE TABLE IF NOT EXISTS s.t (...)`: a pre-existing
table keeps its old definition. -/
def createTableIfNotExists (cat : Catalog) (key : String × String)
    (defn : String) : Catalog :=
  if (cat.find? (fun e => e.1 == key)).isSome then cat else cat ++ [(key, defn)]

/-- Executing the two statements of `create_postgres_table` against a
catalog: the drop targets `("dbo", pg_table_name)` and the create
targets `(pgSchema, pg_table_name)`, as in the composed SQL. -/
def replicate_table_ddl_step (pgSchema table_name : String)
    (schema : List SchemaRow) (cat : Catalog) : Catalog :=
  let out := create_postgres_table_sql pgSchema table_name schema
  createTableIfNotExists (dropTableIfExists cat ("dbo", out.pg_table_name))
    (pgSchema, out.pg_table_name) out.create_sql

end Repl

namespace Repl

theorem isUp_lowerChar (c : Char) : isUp (lowerChar c) = false := by
  by_cases h : isUp c = true
  · have hb : 65 ≤ c.toNat ∧ c.toNat ≤ 90 := by
      simpa [isUp] using h
    simp only [lowerChar, h, if_true]
    obtain ⟨h1, h2⟩ := hb
    generalize hn : c.toNat = n at h1 h2
    interval_cases n <;> decide
  · simp only [lowerChar, h, if_false]
    simpa using h

theorem lowerChar_of_not_up {c : Char} (h : isUp c = false) : lowerChar c = c := by
  simp [lowerChar, h]

/-- A list with no ASCII uppercase character is untouched by the first
regex pass. -/
theorem sub1_of_noUp (l : List Char) (h : ∀ c ∈ l, isUp c = false) :
    sub1 l = l := by
  induction l using sub1.induct with
  | case1 => rw [sub1]
  | case2 a => rw [sub1]
  | case3 a b => rw [sub1]
  | case4 c u lo rest hguard ih =>
    exfalso
    have hu : isUp u = false := h u (by simp)
    simp [hu] at hguard
  | case5 c u lo rest hguard ih =>
    rw [sub1, if_neg (by simpa using hguard)]
    have := ih (fun c hc => h c (by simp only [List.mem_cons] at hc ⊢ ; tauto))
    simp_all

/-- A list with no ASCII uppercase character is untouched by the second
regex pass. -/
theorem sub2_of_noUp (l : List Char) (h : ∀ c ∈ l, isUp c = false) :
    sub2 l = l := by
  induction l using sub2.induct with
  | case1 => rw [sub2]
  | case2 a => rw [sub2]
  | case3 a b rest hguard ih =>
    exfalso
    have hb : isUp b = false := h b (by simp)
    simp [hb] at hguard
  | case4 a b rest hguard ih =>
    rw [sub2, if_neg (by simpa using hguard)]
    have := ih (fun c hc => h c (by simp only [List.mem_cons] at hc ⊢ ; tauto))
    simp_all

theorem map_lowerChar_of_noUp (l : List Char) (h : ∀ c ∈ l, isUp c = false) :
    l.map lowerChar = l := by
  induction l with
  | nil => rfl
  | cons a t ih =>
    simp only [List.map_cons]
    rw [lowerChar_of_not_up (h a (by simp)), ih (fun c hc => h c (by simp [hc]))]

theorem noUp_camel_to_snake (x : List Char) :
    ∀ c ∈ camel_to_snake x, isUp c = false := by
  intro c hc
  simp only [camel_to_snake, List.mem_map] at hc
  obtain ⟨d, _, rfl⟩ := hc
  exact isUp_lowerChar d

/-- C9: the PascalCase/camelCase → lower-snake-case identifier transform
is idempotent: applying `to_snake_case` (`replicate-schema.py`) or
`camel_to_snake` (`sync-data.py`, same code) twice gives the same result
as applying it once.  After one application the result contains no ASCII
uppercase letter, so neither regex pass can match and lowering is the
identity. -/
theorem to_snake_case_idempotent (x : List Char) :
    to_snake_case (to_snake_case x) = to_snake_case x ∧
    camel_to_snake (camel_to_snake x) = camel_to_snake x := by
  have key : ∀ y : List Char, (∀ c ∈ y, isUp c = false) →
      (sub2 (sub1 y)).map lowerChar = y := by
    intro y hy
    rw [sub1_of_noUp y hy, sub2_of_noUp y hy, map_lowerChar_of_noUp y hy]
  constructor
  · exact key (to_snake_case x) (noUp_camel_to_snake x)
  · exact key (camel_to_snake x) (noUp_camel_to_snake x)

/-- Every `TYPE_MAPPING` entry is a plain string unless its key is one of
the six names dispatched to a lambda by `convert_type`. -/
theorem type_mapping_shape :
    TYPE_MAPPING.all (fun p => p.2.isStr ||
      (p.1 == "decimal" || p.1 == "numeric" || p.1 == "char" ||
       p.1 == "varchar" || p.1 == "nchar" || p.1 == "nvarchar")) = true := by
  rfl

/-- C5: `varchar`/`nvarchar` map to bounded `VARCHAR` exactly when
`0 < length < 8000` (the `nvarchar` bound is the floor-halved reported
byte length, as for `char`/`nchar`), and to `TEXT` otherwise; in
particular reported length 8000 gives `TEXT` and 7999 gives
`VARCHAR(7999)` / `VARCHAR(3999)`. -/
theorem convert_type_varchar_boundary :
    (∀ ml p s : Int, convert_type "varchar" ml p s =
      .ok (if ml > 0 ∧ ml < 8000 then "VARCHAR(" ++ toString ml ++ ")" else "TEXT")) ∧
    (∀ ml p s : Int, convert_type "nvarchar" ml p s =
      .ok (if ml > 0 ∧ ml < 8000 then "VARCHAR(" ++ toString (Int.fdiv ml 2) ++ ")" else "TEXT")) ∧
    (∀ ml p s : Int, convert_type "char" ml p s =
      .ok ("CHAR(" ++ toString (Int.fdiv ml 2) ++ ")")) ∧
    (∀ ml p s : Int, convert_type "nchar" ml p s =
      .ok ("CHAR(" ++ toString (Int.fdiv ml 2) ++ ")")) ∧
    convert_type "varchar" 8000 0 0 = .ok "TEXT" ∧
    convert_type "nvarchar" 8000 0 0 = .ok "TEXT" ∧
    convert_type "varchar" 7999 0 0 = .ok "VARCHAR(7999)" ∧
    convert_type "nvarchar" 7999 0 0 = .ok "VARCHAR(3999)" := by
  refine ⟨fun ml p s => rfl, fun ml p s => rfl, fun ml p s => rfl, fun ml p s => rfl,
    rfl, rfl, rfl, rfl⟩

/-- C8: `convert_type` is total — for every source type name, length,
precision and scale it returns a target type string and never reaches a
dynamic error (`KeyError` on the dict or calling a non-callable); every
type name absent from `TYPE_MAPPING` falls back to `TEXT`. -/
theorem convert_type_total (dt : String) (ml p s : Int) :
    (∃ out, convert_type dt ml p s = Except.ok out) ∧
    (lookupType (pyLower dt) = none → convert_type dt ml p s = Except.ok "TEXT") := by
  unfold convert_type
  by_cases h1 : pyLower dt = "decimal" ∨ pyLower dt = "numeric"
  · constructor
    · rcases h1 with h | h <;> rw [if_pos (by tauto)] <;> rw [h] <;> exact ⟨_, rfl⟩
    · intro hn
      rcases h1 with h | h <;> rw [h] at hn <;> simp [lookupType, TYPE_MAPPING] at hn
  · by_cases h2 : pyLower dt = "char" ∨ pyLower dt = "varchar" ∨
        pyLower dt = "nchar" ∨ pyLower dt = "nvarchar"
    · constructor
      · rcases h2 with h | h | h | h <;> rw [if_neg h1, if_pos (by tauto)] <;>
          rw [h] <;> exact ⟨_, rfl⟩
      · intro hn
        rcases h2 with h | h | h | h <;> rw [h] at hn <;>
          simp [lookupType, TYPE_MAPPING] at hn
    · rw [if_neg h1, if_neg h2]
      cases hfind : lookupType (pyLower dt) with
      | none => exact ⟨⟨"TEXT", rfl⟩, fun _ => rfl⟩
      | some r =>
        refine ⟨?_, fun hn => Option.noConfusion hn⟩
        have hmem' := hfind
        unfold lookupType at hmem'
        cases he : TYPE_MAPPING.find? (fun q => q.1 == pyLower dt) with
        | none => rw [he] at hmem'; cases hmem'
        | some e =>
          rw [he] at hmem'
          have hr : r = e.2 := by cases hmem'; rfl
          have hkey := List.find?_some he
          have hmem : e ∈ TYPE_MAPPING := List.mem_of_find?_eq_some he
          have hshape := (List.all_eq_true.mp type_mapping_shape) e hmem
          have hk : e.1 = pyLower dt := by simpa using hkey
          have hstr : e.2.isStr = true := by
            rw [hk] at hshape
            simp only [Bool.or_eq_true, beq_iff_eq] at hshape
            rcases hshape with h | h
            · exact h
            · exfalso; tauto
          cases e2 : e.2 with
          | s v => rw [hr, e2]; exact ⟨v, rfl⟩
          | f1 f => rw [e2] at hstr; cases hstr
          | f2 f => rw [e2] at hstr; cases hstr

/-- Witness for C8 at the unknown type name `hstore`: the fallback
really is `TEXT`. -/
theorem convert_type_total_witness :
    (∃ out, convert_type "hstore" 1 2 3 = Except.ok out) ∧
    convert_type "hstore" 1 2 3 = Except.ok "TEXT" :=
  ⟨(convert_type_total "hstore" 1 2 3).1, (convert_type_total "hstore" 1 2 3).2 rfl⟩

/-- C6 counterexample: in a JSON-declared column the non-`None`,
non-string value `0` is mapped to `None` (Python `json.dumps(value) if
value else None` with `0` falsy), not to its JSON serialization `"0"`. -/
theorem transform_value_json_falsy_cex :
    transform_value [] ["payload"] (PyVal.pint 0) "payload" "int" = PyVal.none ∧
    transform_value [] ["payload"] (PyVal.pint 0) "payload" "int" ≠
      PyVal.pstr (jsonDumps (PyVal.pint 0)) := by
  refine ⟨rfl, ?_⟩
  intro h
  rw [show transform_value [] ["payload"] (PyVal.pint 0) "payload" "int" = PyVal.none from rfl] at h
  exact PyVal.noConfusion h

/-- C6 amended: for a non-`None` value in a JSON-declared column (that
is not also UUID-declared), `transform_value` returns the value
unchanged when it is already a string; otherwise it returns the JSON
serialization as a string when the value is truthy and `None` when the
value is falsy. -/
theorem transform_value_json_spec (uuidCols jsonCols : List String) (v : PyVal)
    (col dt : String)
    (hjson : ((jsonCols.map pyLower).contains (pyLower col)) = true)
    (huuid : ((uuidCols.map pyLower).contains (pyLower col)) = false)
    (hv : v ≠ PyVal.none) :
    transform_value uuidCols jsonCols v col dt =
      (if isPyStr v then v
       else if truthy v then PyVal.pstr (jsonDumps v) else PyVal.none) := by
  cases v with
  | none => exact absurd rfl hv
  | pstr s => simp only [transform_value]; rw [huuid, hjson]; simp
  | pint n => simp only [transform_value]; rw [huuid, hjson]; simp
  | pbool b => simp only [transform_value]; rw [huuid, hjson]; simp
  | plist xs => simp only [transform_value]; rw [huuid, hjson]; simp

/-- Witness for the amended C6 at concrete inputs: a string passes
through, a truthy non-string is JSON-serialized. -/
theorem transform_value_json_spec_witness :
    transform_value [] ["payload"] (PyVal.pstr "x") "payload" "int" = PyVal.pstr "x" ∧
    transform_value [] ["payload"] (PyVal.pint 7) "Payload" "int" =
      PyVal.pstr (jsonDumps (PyVal.pint 7)) := by
  constructor
  · have h := transform_value_json_spec [] ["payload"] (PyVal.pstr "x") "payload" "int"
      rfl rfl (fun hc => PyVal.noConfusion hc)
    simpa using h
  · have h := transform_value_json_spec [] ["payload"] (PyVal.pint 7) "Payload" "int"
      rfl rfl (fun hc => PyVal.noConfusion hc)
    simpa using h

/-- C7: `get_last_failed_table` returns the first table in iteration
order whose record for the phase is `failed` or `in_progress`
(`List.find?` semantics), and returns `None` exactly when no table has
such a record. -/
theorem get_last_failed_table_spec (pd : ProgressData) (phase : String) :
    get_last_failed_table pd phase =
      Option.map Prod.fst (pd.find? (fun e => failedOrInProgress e.2 phase)) ∧
    (get_last_failed_table pd phase = Option.none ↔
      ∀ e ∈ pd, failedOrInProgress e.2 phase = false) := by
  induction pd with
  | nil => exact ⟨rfl, by simp [get_last_failed_table]⟩
  | cons hd rest ih =>
    obtain ⟨t, phases⟩ := hd
    cases hg : dictGet? phases phase with
    | none =>
      have hfp : failedOrInProgress phases phase = false := by
        simp [failedOrInProgress, hg]
      constructor
      · rw [show get_last_failed_table ((t, phases) :: rest) phase =
            get_last_failed_table rest phase by simp [get_last_failed_table, hg]]
        rw [List.find?_cons_of_neg _ (by simpa using hfp)]
        exact ih.1
      · rw [show get_last_failed_table ((t, phases) :: rest) phase =
            get_last_failed_table rest phase by simp [get_last_failed_table, hg]]
        rw [ih.2]
        constructor
        · intro h e he
          rcases List.mem_cons.mp he with rfl | he'
          · exact hfp
          · exact h e he'
        · intro h e he
          exact h e (List.mem_cons_of_mem _ he)
    | some r =>
      by_cases hc : r.status = Status.failed ∨ r.status = Status.in_progress
      · have hfp : failedOrInProgress phases phase = true := by
          simp [failedOrInProgress, hg, hc]
        have hg' : get_last_failed_table ((t, phases) :: rest) phase = some t := by
          simp [get_last_failed_table, hg, hc]
        constructor
        · rw [hg', List.find?_cons_of_pos _ (by simpa using hfp)]
          rfl
        · rw [hg']
          constructor
          · intro h; cases h
          · intro h
            have := h (t, phases) (by simp)
            rw [hfp] at this
            cases this
      · have hfp : failedOrInProgress phases phase = false := by
          simp only [failedOrInProgress, hg]
          simpa using hc
        have hg' : get_last_failed_table ((t, phases) :: rest) phase =
            get_last_failed_table rest phase := by
          simp [get_last_failed_table, hg, hc]
        constructor
        · rw [hg', List.find?_cons_of_neg _ (by simpa using hfp)]
          exact ih.1
        · rw [hg', ih.2]
          constructor
          · intro h e he
            rcases List.mem_cons.mp he with rfl | he'
            · exact hfp
            · exact h e he'
          · intro h e he
            exact h e (List.mem_cons_of_mem _ he)

/-- Witness for C7 at a concrete progress state: the first (not the
most recent) failed table is returned, and skipping of completed
entries works. -/
theorem get_last_failed_table_spec_witness :
    get_last_failed_table
      [("A", [("data", ⟨Status.completed, 1, Option.none⟩)]),
       ("B", [("data", ⟨Status.failed, 0, some "x"⟩)]),
       ("C", [("data", ⟨Status.in_progress, 0, Option.none⟩)])] "data" = some "B" := by
  rw [(get_last_failed_table_spec
    [("A", [("data", ⟨Status.completed, 1, Option.none⟩)]),
     ("B", [("data", ⟨Status.failed, 0, some "x"⟩)]),
     ("C", [("data", ⟨Status.in_progress, 0, Option.none⟩)])] "data").1]
  rfl

theorem dictGet?_dictSet_self {α : Type} (d : List (String × α)) (k : String) (v : α) :
    dictGet? (dictSet d k v) k = some v := by
  induction d with
  | nil => simp [dictSet, dictGet?]
  | cons hd rest ih =>
    obtain ⟨k', v'⟩ := hd
    by_cases h : k' = k
    · simp [dictSet, dictGet?, h]
    · simp [dictSet, dictGet?, h, ih]

theorem mark_failed_record (pd : ProgressData) (t phase msg : String) (rows : Int) :
    dictGet? ((dictGet? (mark_table_failed pd t phase msg rows) t).getD []) phase =
      some ⟨.failed, rows, some msg⟩ := by
  unfold mark_table_failed
  rw [dictGet?_dictSet_self]
  simp [dictGet?_dictSet_self]

/-- With a failure injected at fetch call `n` and at least `n` rows not
yet consumed, the batch loop raises with the injected message. -/
theorem syncLoop_fail (bs : Nat) (tr : List PyVal → List PyVal) (n : Nat) (msg : String) :
    ∀ (remaining : List (List PyVal)) (fetchIdx : Nat) (batch : List (List PyVal))
      (synced : Nat) (st : TgTx) (trace : List TgOp),
      fetchIdx ≤ n → n ≤ fetchIdx + remaining.length →
      (syncLoop bs tr (some (n, msg)) remaining fetchIdx batch synced st trace).1 = some msg := by
  intro remaining
  induction remaining with
  | nil =>
    intro fetchIdx batch synced st trace h1 h2
    have hn : n = fetchIdx := by simp at h2; omega
    rw [syncLoop]
    simp [hn]
  | cons r rest ih =>
    intro fetchIdx batch synced st trace h1 h2
    by_cases hn : n = fetchIdx
    · rw [syncLoop]
      simp [hn]
    · have hlt : fetchIdx < n := by omega
      rw [syncLoop]
      rw [if_neg (by simp; omega)]
      simp only []
      by_cases hb : bs ≤ (batch ++ [tr r]).length
      · rw [if_pos hb]
        exact ih (fetchIdx + 1) _ _ _ _ (by omega) (by simp at h2 ⊢; omega)
      · rw [if_neg hb]
        exact ih (fetchIdx + 1) _ _ _ _ (by omega) (by simp at h2 ⊢; omega)

/-- With no injected failure the batch loop consumes every row: it
returns cleanly, counts `synced + |batch| + |remaining|` rows, and the
committed target ends as `C ++ batch ++ map tr remaining`. -/
theorem syncLoop_ok (bs : Nat) (tr : List PyVal → List PyVal) :
    ∀ (remaining : List (List PyVal)) (fetchIdx : Nat) (batch : List (List PyVal))
      (synced : Nat) (C : List (List PyVal)) (trace : List TgOp),
      ∃ tr', syncLoop bs tr Option.none remaining fetchIdx batch synced ⟨C, [], false⟩ trace
        = (Option.none, synced + batch.length + remaining.length,
            ⟨C ++ batch ++ remaining.map tr, [], false⟩, tr') := by
  intro remaining
  induction remaining with
  | nil =>
    intro fetchIdx batch synced C trace
    rw [syncLoop]
    by_cases hb : batch.isEmpty
    · refine ⟨trace, ?_⟩
      have hbe : batch = [] := by simpa [List.isEmpty_iff] using hb
      simp [hb, hbe]
    · refine ⟨trace ++ [.insertBatch batch.length, .commit], ?_⟩
      simp only [hb, Bool.false_eq_true, if_false, if_neg]
      simp [txInsert, txCommit]
  | cons r rest ih =>
    intro fetchIdx batch synced C trace
    rw [syncLoop]
    simp only []
    by_cases hb : bs ≤ (batch ++ [tr r]).length
    · rw [if_pos hb]
      obtain ⟨tr', htr⟩ := ih (fetchIdx + 1) [] (synced + (batch ++ [tr r]).length)
        (C ++ (batch ++ [tr r])) (trace ++ [.insertBatch (batch ++ [tr r]).length, .commit])
      refine ⟨tr', ?_⟩
      rw [show txCommit (txInsert ⟨C, [], false⟩ (batch ++ [tr r])) =
          (⟨C ++ (batch ++ [tr r]), [], false⟩ : TgTx) by simp [txInsert, txCommit]]
      rw [htr]
      simp [Prod.ext_iff, TgTx.mk.injEq, List.append_assoc]
      omega
    · rw [if_neg hb]
      obtain ⟨tr', htr⟩ := ih (fetchIdx + 1) (batch ++ [tr r]) synced C trace
      refine ⟨tr', ?_⟩
      rw [htr]
      simp [Prod.ext_iff, TgTx.mk.injEq, List.append_assoc]
      omega

/-- C2 counterexample: with batch size 1, two source rows and a read
error at the third fetch, two rows are already committed in the target,
yet the failed record stores `rows_synced = 0` (the call site passes no
row count), not 2 — so "rows_synced equal to the number of rows already
synced before the failure" fails. -/
theorem sync_failed_rows_synced_cex :
    (sync_table_data [] [] "Orders" [("Id", "int")] [[PyVal.pint 1], [PyVal.pint 2]]
        (some (2, "boom")) 1 [] []).target.length = 2 ∧
    dictGet? ((dictGet? (sync_table_data [] [] "Orders" [("Id", "int")]
        [[PyVal.pint 1], [PyVal.pint 2]] (some (2, "boom")) 1 [] []).progress
        "Orders").getD []) "data" = some ⟨Status.failed, 0, some "boom"⟩ ∧
    (0 : Int) ≠ 2 := by
  refine ⟨rfl, rfl, by decide⟩

/-- C2 amended: on an exception during the read/transform/write loop,
`sync_table_data` marks the table's data record `failed` with the
exception text but with `rows_synced = 0` (Python's default — the
partial count is not recorded), and returns 0 instead of raising. -/
theorem sync_table_data_failure_spec (uuidCols jsonCols : List String)
    (table : String) (columns : List (String × String)) (rows : List (List PyVal))
    (n : Nat) (msg : String) (bs : Nat) (tgt : List (List PyVal)) (pd : ProgressData)
    (hn : n ≤ rows.length) :
    (sync_table_data uuidCols jsonCols table columns rows (some (n, msg)) bs tgt pd).retval
      = 0 ∧
    dictGet? ((dictGet? (sync_table_data uuidCols jsonCols table columns rows
        (some (n, msg)) bs tgt pd).progress table).getD []) "data" =
      some ⟨Status.failed, 0, some msg⟩ := by
  have h1 := syncLoop_fail bs (transformRow uuidCols jsonCols columns) n msg rows 0 [] 0
    (txCommit (txTruncate ⟨tgt, [], false⟩)) [.truncate, .commit]
    (Nat.zero_le n) (by simpa using hn)
  cases hres : syncLoop bs (transformRow uuidCols jsonCols columns) (some (n, msg))
      rows 0 [] 0 (txCommit (txTruncate ⟨tgt, [], false⟩)) [.truncate, .commit] with
  | mk o rest =>
    obtain ⟨synced, st, trace⟩ := rest
    have ho : o = some msg := by rw [hres] at h1; exact h1
    subst ho
    unfold sync_table_data
    rw [hres]
    exact ⟨rfl, mark_failed_record _ _ _ _ _⟩

/-- Witness for the amended C2: failure at the very first fetch marks
the record failed with the message and returns 0. -/
theorem sync_table_data_failure_spec_witness :
    (sync_table_data [] [] "T" [] [] (some (0, "err")) 10 [] []).retval = 0 ∧
    dictGet? ((dictGet? (sync_table_data [] [] "T" [] [] (some (0, "err")) 10 [] []).progress
        "T").getD []) "data" = some ⟨Status.failed, 0, some "err"⟩ :=
  sync_table_data_failure_spec [] [] "T" [] [] 0 "err" 10 [] [] (Nat.le_refl 0)

/-- C3 counterexample: in a clean one-row run the executed statement
trace is `TRUNCATE; COMMIT; INSERT; COMMIT` — a `COMMIT` separates the
truncate from the first batch insert, so the truncate is *not* inside
the same transaction boundary as the inserts. -/
theorem sync_truncate_own_transaction_cex :
    (sync_table_data [] [] "Orders" [("Id", "int")] [[PyVal.pint 1]] Option.none 1000
        [[PyVal.pstr "old"]] []).trace =
      [TgOp.truncate, TgOp.commit, TgOp.insertBatch 1, TgOp.commit] ∧
    commitsBetweenTruncateAndFirstInsert
      ((sync_table_data [] [] "Orders" [("Id", "int")] [[PyVal.pint 1]] Option.none 1000
        [[PyVal.pstr "old"]] []).trace) ≠ 0 := by
  refine ⟨rfl, by decide⟩

/-- Shared success-path description of `sync_table_data`: a clean run
ends with the target holding exactly the transformed source rows and
returns their count. -/
theorem sync_table_data_ok (uuidCols jsonCols : List String) (table : String)
    (columns : List (String × String)) (rows : List (List PyVal)) (bs : Nat)
    (tgt : List (List PyVal)) (pd : ProgressData) :
    (sync_table_data uuidCols jsonCols table columns rows Option.none bs tgt pd).target
      = rows.map (transformRow uuidCols jsonCols columns) ∧
    (sync_table_data uuidCols jsonCols table columns rows Option.none bs tgt pd).retval
      = Int.ofNat rows.length := by
  obtain ⟨tr', htr⟩ := syncLoop_ok bs (transformRow uuidCols jsonCols columns) rows 0 [] 0 []
    [.truncate, .commit]
  have hst : txCommit (txTruncate ⟨tgt, [], false⟩) = (⟨[], [], false⟩ : TgTx) := by
    simp [txTruncate, txCommit]
  unfold sync_table_data
  rw [hst, htr]
  exact ⟨by simp, by simp⟩

/-- C3 amended: the truncate is committed in its own transaction
immediately before the batch inserts begin (see the counterexample for
the trace), and the data phase is nevertheless idempotent: a clean
re-run of `sync_table_data` on unchanged source rows leaves the same
final target contents and row count as the first run — never duplicated
or partially-old rows. -/
theorem sync_table_data_idempotent (uuidCols jsonCols : List String) (table : String)
    (columns : List (String × String)) (rows : List (List PyVal)) (bs : Nat)
    (tgt : List (List PyVal)) (pd : ProgressData) :
    (sync_table_data uuidCols jsonCols table columns rows Option.none bs
        (sync_table_data uuidCols jsonCols table columns rows Option.none bs tgt pd).target
        (sync_table_data uuidCols jsonCols table columns rows Option.none bs tgt pd).progress).target
      = (sync_table_data uuidCols jsonCols table columns rows Option.none bs tgt pd).target ∧
    (sync_table_data uuidCols jsonCols table columns rows Option.none bs tgt pd).target
      = rows.map (transformRow uuidCols jsonCols columns) ∧
    (sync_table_data uuidCols jsonCols table columns rows Option.none bs tgt pd).target.length
      = rows.length := by
  have h1 := sync_table_data_ok uuidCols jsonCols table columns rows bs tgt pd
  have h2 := sync_table_data_ok uuidCols jsonCols table columns rows bs
    (sync_table_data uuidCols jsonCols table columns rows Option.none bs tgt pd).target
    (sync_table_data uuidCols jsonCols table columns rows Option.none bs tgt pd).progress
  refine ⟨?_, h1.1, ?_⟩
  · rw [h2.1, h1.1]
  · rw [h1.1]
    simp

/-- C1: a run with a single table whose data sync raises still exits 0.
`sync_table_data` swallows the exception and returns 0, and `main`'s
guard `if rows >= 0` is vacuously true, so the failed table is counted
in `successful_tables` and the all-complete branch (`sys.exit(0)`) is
taken — even though the table's record is `failed`.  The claim (and the
script's own summary, which would report this table under "Failed")
requires exit code 1 here. -/
theorem main_exit_zero_on_failed_sync :
    (main_sync false Option.none [] [] 1000 ["Orders"]
      (fun _ => ⟨Option.none, [("Id", "int")], [[PyVal.pint 1]],
        some (0, "insert failed"), []⟩) []).exitCode = 0 ∧
    dictGet? ((dictGet? ((main_sync false Option.none [] [] 1000 ["Orders"]
      (fun _ => ⟨Option.none, [("Id", "int")], [[PyVal.pint 1]],
        some (0, "insert failed"), []⟩) []).progress) "Orders").getD []) "data"
      = some ⟨Status.failed, 0, some "insert failed"⟩ := by
  exact ⟨rfl, rfl⟩

/-- Under `--resume` the per-table completed-skip is disabled, so from
the start index every table is processed, whatever its status. -/
theorem mainGo_resume_processed (uuidCols jsonCols : List String) (bs : Nat)
    (env : String → TableEnv) (si : Nat) :
    ∀ (rest : List String) (i : Nat) (st : LoopState),
      (mainGo true uuidCols jsonCols bs env si rest i st).processed =
        st.processed ++ rest.drop (si - i) := by
  intro rest
  induction rest with
  | nil =>
    intro i st
    rw [mainGo]
    simp
  | cons t rest' ih =>
    intro i st
    rw [mainGo]
    by_cases hi : i < si
    · rw [if_pos hi, ih]
      have hd : si - i = (si - (i + 1)) + 1 := by omega
      rw [hd, List.drop_succ_cons]
    · rw [if_neg hi]
      have hz : si - (i + 1) = 0 := by omega
      have hz' : si - i = 0 := by omega
      simp only [Bool.not_true, Bool.false_and, Bool.false_eq_true, if_false]
      cases henv : (env t).colsErr with
      | some msg =>
        rw [ih]
        simp [hz, hz']
      | none =>
        rw [ih]
        split <;> simp [hz, hz']

/-- C4 counterexample: under `--resume` with no failed/in-progress
record, the already-completed table `A` is *processed again* — the run
processes `["A", "B"]`, not the non-completed `["B"]` demanded by the
claim (the completed-skip is guarded by `not args.resume`). -/
theorem main_resume_reprocesses_completed_cex :
    (main_sync true Option.none [] [] 1000 ["A", "B"]
      (fun _ => ⟨Option.none, [], [], Option.none, []⟩)
      [("A", [("data", ⟨Status.completed, 5, Option.none⟩)])]).processed = ["A", "B"] ∧
    (["A", "B"] : List String) ≠ ["B"] := by
  exact ⟨rfl, by decide⟩

/-- C4 amended: under resume, when `get_last_failed_table` finds a
failed/in-progress table present in the list, processing starts at its
position and covers every later table; when it finds none (or the table
is not in the list), *all* tables are processed from the start —
including already-completed ones, since the completed-skip requires
`not args.resume`. -/
theorem main_resume_processes_suffix (tables : List String) (env : String → TableEnv)
    (pd : ProgressData) (uuidCols jsonCols : List String) (bs : Nat) :
    (main_sync true Option.none uuidCols jsonCols bs tables env pd).processed =
      tables.drop (match get_last_failed_table pd "data" with
        | some t => if t ∈ tables then tables.findIdx (fun x => x == t) else 0
        | Option.none => 0) := by
  by_cases he : tables.isEmpty = true
  · have : tables = [] := by simpa [List.isEmpty_iff] using he
    subst this
    rw [show (main_sync true Option.none uuidCols jsonCols bs [] env pd).processed = []
      from rfl]
    simp
  · have hsi : compute_start_index true Option.none tables pd =
        some (match get_last_failed_table pd "data" with
          | some t => if t ∈ tables then tables.findIdx (fun x => x == t) else 0
          | Option.none => 0) := by
      unfold compute_start_index
      cases hg : get_last_failed_table pd "data" with
      | none => rfl
      | some t =>
        by_cases ht : t ∈ tables
        · simp [ht]
        · simp [ht]
    have hmain : (main_sync true Option.none uuidCols jsonCols bs tables env pd).processed =
        (mainGo true uuidCols jsonCols bs env
          (match get_last_failed_table pd "data" with
            | some t => if t ∈ tables then tables.findIdx (fun x => x == t) else 0
            | Option.none => 0) tables 0 ⟨pd, 0, 0, 0, []⟩).processed := by
      unfold main_sync
      rw [if_neg he, hsi]
    rw [hmain, mainGo_resume_processed]
    simp

/-- Lookup is unchanged by dropping a different key. -/
theorem catGet?_dropTableIfExists (cat : Catalog) (k k' : String × String)
    (h : k ≠ k') :
    catGet? (dropTableIfExists cat k') k = catGet? cat k := by
  induction cat with
  | nil => rfl
  | cons e rest ih =>
    have hstep : dropTableIfExists (e :: rest) k' =
        (if (!(e.1 == k')) = true then e :: dropTableIfExists rest k'
         else dropTableIfExists rest k') := by
      unfold dropTableIfExists
      rw [List.filter_cons]
    rw [hstep]
    by_cases he : e.1 = k'
    · have hfilt : (!(e.1 == k')) = false := by simp [he]
      have hne : (e.1 == k) = false := by
        simp only [beq_eq_false_iff_ne]
        intro hc
        exact h (by rw [← hc, he])
      rw [hfilt]
      simp only [Bool.false_eq_true, if_false]
      unfold catGet?
      rw [List.find?_cons_of_neg _ (by simp [hne])]
      exact ih
    · have hfilt : (!(e.1 == k')) = true := by simp [he]
      rw [hfilt]
      simp only [if_true]
      unfold catGet?
      by_cases hek : (e.1 == k) = true
      · rw [List.find?_cons_of_pos (p := fun (q : (String × String) × String) => q.1 == k)
            _ hek,
          List.find?_cons_of_pos (p := fun (q : (String × String) × String) => q.1 == k)
            _ hek]
      · rw [List.find?_cons_of_neg (p := fun (q : (String × String) × String) => q.1 == k)
            _ (by simpa using hek),
          List.find?_cons_of_neg (p := fun (q : (String × String) × String) => q.1 == k)
            _ (by simpa using hek)]
        exact ih

/-- C10: the composed `DROP TABLE` always targets schema `dbo` while
the composed `CREATE TABLE` targets the configured schema; the two
refer to the same table iff that schema is `dbo`, and for any other
schema a pre-existing target table survives with its old definition
(the create is `IF NOT EXISTS`). -/
theorem create_postgres_table_schema_mismatch (pgSchema tname : String)
    (schema : List SchemaRow) (cat : Catalog) (oldDef : String)
    (hschema : pgSchema ≠ "dbo")
    (hpre : catGet? cat
      (pgSchema, (create_postgres_table_sql pgSchema tname schema).pg_table_name)
      = some oldDef) :
    (create_postgres_table_sql pgSchema tname schema).drop_sql
      = "DROP TABLE IF EXISTS dbo." ++ to_snake_case_str tname ++ " CASCADE" ∧
    (∃ rest, (create_postgres_table_sql pgSchema tname schema).create_sql
      = "CREATE TABLE IF NOT EXISTS " ++ pgSchema ++ "." ++ to_snake_case_str tname
        ++ rest) ∧
    (∀ nm : String, (("dbo", nm) = (pgSchema, nm)) ↔ pgSchema = "dbo") ∧
    catGet? (replicate_table_ddl_step pgSchema tname schema cat)
      (pgSchema, (create_postgres_table_sql pgSchema tname schema).pg_table_name)
      = some oldDef := by
  refine ⟨rfl, ⟨create_table_body schema, rfl⟩, ?_, ?_⟩
  · intro nm
    constructor
    · intro h
      have := congrArg Prod.fst h
      exact this.symm
    · intro h
      rw [h]
  · unfold replicate_table_ddl_step
    have hk : (pgSchema, (create_postgres_table_sql pgSchema tname schema).pg_table_name)
        ≠ ("dbo", (create_postgres_table_sql pgSchema tname schema).pg_table_name) := by
      intro h
      exact hschema (congrArg Prod.fst h)
    have hdrop := catGet?_dropTableIfExists cat
      (pgSchema, (create_postgres_table_sql pgSchema tname schema).pg_table_name)
      ("dbo", (create_postgres_table_sql pgSchema tname schema).pg_table_name) hk
    rw [hpre] at hdrop
    unfold createTableIfNotExists
    have hsome : ((dropTableIfExists cat
        ("dbo", (create_postgres_table_sql pgSchema tname schema).pg_table_name)).find?
        (fun e => e.1 == (pgSchema,
          (create_postgres_table_sql pgSchema tname schema).pg_table_name))).isSome
        = true := by
      unfold catGet? at hdrop
      cases hf : (dropTableIfExists cat
          ("dbo", (create_postgres_table_sql pgSchema tname schema).pg_table_name)).find?
          (fun e => e.1 == (pgSchema,
            (create_postgres_table_sql pgSchema tname schema).pg_table_name)) with
      | none => rw [hf] at hdrop; simp at hdrop
      | some e => rfl
    rw [if_pos hsome]
    exact hdrop

/-- Witness for C10 with schema `public`, table `Orders` and a
pre-existing `public.orders` with definition `OLD`: the old definition
survives the drop/create pair. -/
theorem create_postgres_table_schema_mismatch_witness :
    catGet? (replicate_table_ddl_step "public" "Orders" []
        [(("public", "orders"), "OLD")])
      ("public", (create_postgres_table_sql "public" "Orders" []).pg_table_name)
      = some "OLD" := by
  have hname : (create_postgres_table_sql "public" "Orders" []).pg_table_name
      = "orders" := by
    simp +decide [create_postgres_table_sql, to_snake_case_str, to_snake_case, sub1, sub2]
  have h := create_postgres_table_schema_mismatch "public" "Orders" []
    [(("public", "orders"), "OLD")] "OLD" (by decide)
    (by rw [hname]; rfl)
  exact h.2.2.2

end Repl
